import Mathlib

/-!
Shallow embedding of the caching and deduplication layer of
`src/cache_manager.py` (class `CacheManager`), together with proofs of the
spec's testable properties about it.

Modelling conventions:
* Wall-clock instants (`datetime.now()`) are integers counting seconds; a
  `timedelta(hours=h)` is `h * 3600` seconds.
* A stored timestamp string is either `Timestamp.valid t` (an ISO string
  that `datetime.fromisoformat` parses back to instant `t`) or
  `Timestamp.invalid s` (a string that fails to parse, raising in Python).
* `datetime.now().strftime('%Y-%m-%d')` is abstracted as the current date
  string `today`; distinct calendar days yield distinct date strings.
* `hashlib.md5(...).hexdigest()` is modelled as an injective encoding of its
  input (the identity on strings): the spec's §3 invariant declares the
  fingerprints "collision-free for practical purposes", so key
  equality/inequality is decided by the pre-image strings that the code
  canonicalizes before hashing.
* Each JSON store file is a key-value mapping, modelled as an association
  list without duplicate-key reliance (`Store`); Python dict assignment
  updates in place or appends, `in` is key membership.
* Python `a['url']` on an article dict either yields the url or raises
  `KeyError`; fallible operations therefore return `Except PyErr`.
* The class reloads each store file at every operation and saves after
  mutations; in the single-process model of §5 this is state threading, so
  operations take the store(s) as input and return the updated store(s).
-/

/-- Python exceptions that the modelled code paths can raise. -/
inductive PyErr where
  | keyError
  deriving DecidableEq, Repr

/-- A stored timestamp string: either parseable back to an instant
(seconds), or unparseable (in which case `datetime.fromisoformat` raises). -/
inductive Timestamp where
  | valid (t : Int)
  | invalid (s : String)
  deriving DecidableEq, Repr

/-- Model of `datetime.fromisoformat` wrapped in try/except: `some` the instant for a
parseable string, `none` for an unparseable one. -/
def parseTimestamp : Timestamp → Option Int
  | .valid t => some t
  | .invalid _ => none

/-- An article dict. Only the `'url'` field is inspected by the cache layer;
`url?` is `none` when the dict lacks the key (so `a['url']` raises
`KeyError`).  `title` stands for the remaining payload fields. -/
structure Article where
  url? : Option String
  title : String
  deriving DecidableEq, Repr

/-- Python `a['url']`: the url, or a `KeyError`. -/
def Article.getUrl (a : Article) : Except PyErr String :=
  match a.url? with
  | some u => .ok u
  | none => .error .keyError

/-- The url of an article known to have one (defaulting to `""`); used only
on the specification side to state theorems. -/
def Article.urlD (a : Article) : String :=
  a.url?.getD ""

/-- An LLM analysis payload (opaque to the cache layer). -/
structure Analysis where
  data : String
  deriving DecidableEq, Repr

/-- A JSON-object store file: a finite mapping from string keys to records,
in insertion order. -/
def Store (V : Type) : Type := List (String × V)

namespace Store

/-- Empty mapping `{}`. -/
def empty {V : Type} : Store V := []

/-- Python `key in dict` / `dict[key]` lookup (first binding wins). -/
def lookup {V : Type} : Store V → String → Option V
  | [], _ => none
  | (k, v) :: rest, key => if k = key then some v else lookup rest key

/-- Python `dict[key] = value`: replace in place if the key is bound,
otherwise append at the end. -/
def insert {V : Type} : Store V → String → V → Store V
  | [], key, v => [(key, v)]
  | (k, w) :: rest, key, v =>
    if k = key then (key, v) :: rest else (k, w) :: insert rest key v

/-- Number of entries (`len(dict)`). -/
def size {V : Type} (s : Store V) : Nat := s.length

end Store

/-- Content found at a store's backing file path: a well-formed JSON object,
or bytes that fail to read/parse. -/
inductive FileContent (V : Type) where
  | good (m : Store V)
  | corrupt (raw : String)

/-- Model of `CacheManager._load_cache` (src/cache_manager.py:33-42): if the file
exists, try to parse it, returning `{}` on any exception; if it does not
exist, return `{}`.  The filesystem is a partial map from file names to
contents (`none` = file absent). -/
def _load_cache {V : Type} (fs : String → Option (FileContent V)) (cache_file : String) :
    Store V :=
  match fs cache_file with
  | some (.good m) => m
  | some (.corrupt _) => Store.empty
  | none => Store.empty

/-- Model of `CacheManager._is_expired` (src/cache_manager.py:52-59): parse the
timestamp, add `expiry_hours` hours, and compare with `datetime.now()`
(here the parameter `now`); an unparseable timestamp raises inside the
`try`, and the `except` returns `True`. -/
def _is_expired (now : Int) (timestamp : Timestamp) (expiry_hours : Int) : Bool :=
  match parseTimestamp timestamp with
  | some cached_time => decide (now > cached_time + expiry_hours * 3600)
  | none => true

/-- Python's lexicographic (code-point) comparison `s <= t` on the
underlying character lists. -/
def pyCharListLe : List Char → List Char → Bool
  | [], _ => true
  | _ :: _, [] => false
  | a :: as, b :: bs =>
    if a < b then true
    else if b < a then false
    else pyCharListLe as bs

/-- Python string comparison `s <= t` (lexicographic on code points). -/
def pyStrLe (s t : String) : Bool :=
  pyCharListLe s.data t.data

/-- Insert a string into a list sorted by `pyStrLe`. -/
def pyInsert (x : String) : List String → List String
  | [] => [x]
  | y :: ys => if pyStrLe x y then x :: y :: ys else y :: pyInsert x ys

/-- Python `sorted` on a list of strings (insertion sort; any correct sort
agrees on strings since the sort key is the element itself). -/
def pySorted : List String → List String
  | [] => []
  | x :: xs => pyInsert x (pySorted xs)

/-- Model of `hashlib.md5(key.encode()).hexdigest()`, taken as an injective
encoding of the pre-image string (see the header: the spec treats the hash
as collision-free, so the canonicalized pre-image decides key equality). -/
def md5hex (s : String) : String := s

/-- Model of `CacheManager._generate_cache_key` (src/cache_manager.py:61-64):
`md5(f"{topic}_{max_articles}_{date}")` where `date` is
`datetime.now().strftime('%Y-%m-%d')`, passed here as `today`. -/
def _generate_cache_key (today : String) (topic : String) (max_articles : Int) : String :=
  md5hex (topic ++ "_" ++ toString max_articles ++ "_" ++ today)

/-- A record of the fetched-articles cache (`articles_cache.json`). -/
structure ArticlesEntry where
  topic : String
  timestamp : Timestamp
  articles : List Article
  deriving DecidableEq, Repr

/-- A record of the analysis cache (`analysis_cache.json`). -/
structure AnalysisEntry where
  topic : String
  timestamp : Timestamp
  article_count : Nat
  analysis : Analysis
  deriving DecidableEq, Repr

/-- A record of the sent-article ledger (`sent_articles.json`). -/
structure SentEntry where
  topic : String
  sent_at : Timestamp
  deriving DecidableEq, Repr

/-- The freshness window `article_cache_expiry = 24` hours
(src/cache_manager.py:28). -/
def article_cache_expiry : Int := 24

/-- The freshness window `analysis_cache_expiry = 24` hours
(src/cache_manager.py:29). -/
def analysis_cache_expiry : Int := 24

/-- Model of `CacheManager.get_cached_articles` (src/cache_manager.py:66-79): compute
the day-stamped key, look it up, and return the payload unless missing or
expired under the 24-hour window. -/
def get_cached_articles (today : String) (now : Int) (store : Store ArticlesEntry)
    (topic : String) (max_articles : Int) : Option (List Article) :=
  let cache_key := _generate_cache_key today topic max_articles
  match store.lookup cache_key with
  | some entry =>
    if _is_expired now entry.timestamp article_cache_expiry then none
    else some entry.articles
  | none => none

/-- Model of `CacheManager.cache_articles` (src/cache_manager.py:81-93): write the
record under the day-stamped key with the current timestamp. -/
def cache_articles (today : String) (now : Int) (store : Store ArticlesEntry)
    (topic : String) (max_articles : Int) (articles : List Article) :
    Store ArticlesEntry :=
  store.insert (_generate_cache_key today topic max_articles)
    ⟨topic, .valid now, articles⟩

/-- Model of `[a['url'] for a in articles]`: all urls, or a `KeyError` as soon as an
article lacks one. -/
def collectUrls : List Article → Except PyErr (List String)
  | [] => .ok []
  | a :: rest =>
    match a.getUrl with
    | .error e => .error e
    | .ok u =>
      match collectUrls rest with
      | .error e => .error e
      | .ok us => .ok (u :: us)

/-- The analysis-cache key shared by `get_cached_analysis` and
`cache_analysis` (src/cache_manager.py:97-99 and 115-116):
`md5(''.join(sorted([a['url'] for a in articles])))`. -/
def article_set_key (articles : List Article) : Except PyErr String :=
  match collectUrls articles with
  | .error e => .error e
  | .ok article_urls => .ok (md5hex (String.join (pySorted article_urls)))

/-- Model of `CacheManager.get_cached_analysis` (src/cache_manager.py:95-111):
compute the sorted-url key, look it up, and return the analysis unless
missing or expired under the 24-hour window. -/
def get_cached_analysis (now : Int) (store : Store AnalysisEntry)
    (articles : List Article) : Except PyErr (Option Analysis) :=
  match article_set_key articles with
  | .error e => .error e
  | .ok cache_key =>
    match store.lookup cache_key with
    | some entry =>
      if _is_expired now entry.timestamp analysis_cache_expiry then .ok none
      else .ok (some entry.analysis)
    | none => .ok none

/-- Model of `CacheManager.cache_analysis` (src/cache_manager.py:113-128): write the
record (with the article count) under the sorted-url key. -/
def cache_analysis (now : Int) (store : Store AnalysisEntry)
    (articles : List Article) (topic : String) (analysis : Analysis) :
    Except PyErr (Store AnalysisEntry) :=
  match article_set_key articles with
  | .error e => .error e
  | .ok cache_key =>
    .ok (store.insert cache_key ⟨topic, .valid now, articles.length, analysis⟩)

/-- Model of `CacheManager.is_article_sent` (src/cache_manager.py:130-133):
`article_url in sent`. -/
def is_article_sent (sent : Store SentEntry) (article_url : String) : Bool :=
  (sent.lookup article_url).isSome

/-- Model of `CacheManager.mark_article_sent` (src/cache_manager.py:135-142):
`sent[article_url] = {'topic': topic, 'sent_at': now}`. -/
def mark_article_sent (now : Int) (sent : Store SentEntry)
    (article_url : String) (topic : String) : Store SentEntry :=
  sent.insert article_url ⟨topic, .valid now⟩

/-- Model of `CacheManager.filter_new_articles` (src/cache_manager.py:144-152):
`[a for a in articles if not self.is_article_sent(a['url'])]`, raising
`KeyError` when an article lacks a url. -/
def filter_new_articles (sent : Store SentEntry) :
    List Article → Except PyErr (List Article)
  | [] => .ok []
  | a :: rest =>
    match a.getUrl with
    | .error e => .error e
    | .ok u =>
      match filter_new_articles sent rest with
      | .error e => .error e
      | .ok tail =>
        if is_article_sent sent u then .ok tail else .ok (a :: tail)

/-- Model of `CacheManager.mark_articles_sent` (src/cache_manager.py:154-160): mark
each article's url sent in turn, raising `KeyError` at the first article
lacking one. -/
def mark_articles_sent (now : Int) (sent : Store SentEntry) (topic : String) :
    List Article → Except PyErr (Store SentEntry)
  | [] => .ok sent
  | a :: rest =>
    match a.getUrl with
    | .error e => .error e
    | .ok u => mark_articles_sent now (mark_article_sent now sent u topic) topic rest

/-- One pass of `cleanup_old_cache` over a store: keep the entries whose
timestamp is not expired, count the dropped ones (the `for key, entry in
cache.items()` loops at src/cache_manager.py:169-204). -/
def sweepStore {V : Type} (expired : V → Bool) : Store V → Store V × Nat
  | [] => ([], 0)
  | (k, e) :: rest =>
    let (kept, n) := sweepStore expired rest
    if expired e then (kept, n + 1) else ((k, e) :: kept, n)

/-- The three store files of a `CacheManager` (in-memory view of
`articles_cache.json`, `analysis_cache.json`, `sent_articles.json`). -/
structure CMState where
  articles : Store ArticlesEntry
  analysis : Store AnalysisEntry
  sent : Store SentEntry

/-- Model of `CacheManager.cleanup_old_cache` (src/cache_manager.py:162-209): drop
fetch- and analysis-cache records older than `days * 24` hours and ledger
records older than `30 * 24` hours, returning the new state and the total
number of entries removed.  (The code skips rewriting a file when nothing
was removed from it, which leaves the same mapping on disk; and it adds
each per-store count to the total only when positive, which adds the same
sum.) -/
def cleanup_old_cache (now : Int) (st : CMState) (days : Int) : CMState × Nat :=
  let (articles', cleanedA) :=
    sweepStore (fun e => _is_expired now e.timestamp (days * 24)) st.articles
  let (analysis', cleanedB) :=
    sweepStore (fun e => _is_expired now e.timestamp (days * 24)) st.analysis
  let (sent', cleanedC) :=
    sweepStore (fun e => _is_expired now e.sent_at (30 * 24)) st.sent
  (⟨articles', analysis', sent'⟩, cleanedA + cleanedB + cleanedC)

/-! ### Helper lemmas about stores and strings -/

instance {V : Type} : Membership (String × V) (Store V) :=
  inferInstanceAs (Membership (String × V) (List (String × V)))

theorem Store.lookup_insert {V : Type} (s : Store V) (k : String) (v : V) (key : String) :
    Store.lookup (Store.insert s k v) key = if k = key then some v else Store.lookup s key := by
  induction s with
  | nil => simp [Store.insert, Store.lookup]
  | cons kv rest ih =>
    obtain ⟨k', w⟩ := kv
    simp only [Store.insert]
    by_cases h1 : k' = k
    · subst h1
      simp only [if_pos rfl, Store.lookup]
      by_cases h2 : k' = key <;> simp [h2]
    · simp only [if_neg h1, Store.lookup, ih]
      by_cases h2 : k' = key
      · subst h2
        have h3 : k ≠ k' := fun hh => h1 hh.symm
        simp [h3]
      · simp [h2]

theorem Store.lookup_insert_self {V : Type} (s : Store V) (k : String) (v : V) :
    Store.lookup (Store.insert s k v) k = some v := by
  simp [Store.lookup_insert]

theorem string_append_left_cancel {s t u : String} (h : s ++ t = s ++ u) : t = u := by
  have h2 := congrArg String.data h
  simp at h2
  exact String.ext h2

/-! ### C3: expiry boundary -/

/-- Claim C3: for a parseable timestamp `T` and window `W` hours,
`_is_expired` is false whenever the current time is at or before `T + W`
and true whenever it is strictly after `T + W`; for an unparseable
timestamp it is always true. -/
theorem c3_is_expired_boundary (t W now : Int) (s : String) :
    (now ≤ t + W * 3600 → _is_expired now (.valid t) W = false) ∧
    (t + W * 3600 < now → _is_expired now (.valid t) W = true) ∧
    _is_expired now (.invalid s) W = true := by
  refine ⟨fun h => ?_, fun h => ?_, rfl⟩ <;>
    simp [_is_expired, parseTimestamp] <;> omega

/-- Witness for C3 at `T = 0`, `W = 24` hours: not expired at `T+W` (hence
at `T+W−ε`), expired one second after `T+W`, and expired on garbage. -/
theorem c3_is_expired_boundary_witness :
    _is_expired 86400 (.valid 0) 24 = false ∧
    _is_expired 86401 (.valid 0) 24 = true ∧
    _is_expired 0 (.invalid "not a timestamp") 24 = true :=
  ⟨(c3_is_expired_boundary 0 24 86400 "x").1 (by decide),
   (c3_is_expired_boundary 0 24 86401 "x").2.1 (by decide),
   (c3_is_expired_boundary 0 24 0 "not a timestamp").2.2⟩

/-! ### C8: `_load_cache` never raises -/

/-- Claim C8: `_load_cache` is total; it returns the stored mapping when the
backing file exists and parses, and the empty mapping when the file is
absent or its content is corrupt. -/
theorem c8_load_cache_total {V : Type} (fs : String → Option (FileContent V))
    (cache_file : String) :
    (∀ m, fs cache_file = some (.good m) → _load_cache fs cache_file = m) ∧
    (fs cache_file = none → _load_cache fs cache_file = Store.empty) ∧
    (∀ raw, fs cache_file = some (.corrupt raw) →
      _load_cache fs cache_file = Store.empty) := by
  refine ⟨fun m h => ?_, fun h => ?_, fun raw h => ?_⟩ <;> simp [_load_cache, h]

/-- A concrete three-file filesystem for the C8 witness. -/
def fsExample : String → Option (FileContent SentEntry) :=
  fun name =>
    if name = "good.json" then some (.good (Store.empty.insert "u1" ⟨"Crypto", .valid 0⟩))
    else if name = "corrupt.json" then some (.corrupt "garbage bytes")
    else none

/-- Witness for C8 on `fsExample`: stored mapping returned, absent file and
corrupt file both give the empty mapping. -/
theorem c8_load_cache_total_witness :
    _load_cache fsExample "good.json" = Store.empty.insert "u1" ⟨"Crypto", .valid 0⟩ ∧
    _load_cache fsExample "missing.json" = Store.empty ∧
    _load_cache fsExample "corrupt.json" = Store.empty :=
  ⟨(c8_load_cache_total fsExample "good.json").1 _ rfl,
   (c8_load_cache_total fsExample "missing.json").2.1 rfl,
   (c8_load_cache_total fsExample "corrupt.json").2.2 "garbage bytes" rfl⟩

/-! ### C4: day-stamped fetch key -/

/-- Claim C4: `_generate_cache_key` is deterministic within a calendar day
(same date string, topic and count give the same key) and keys generated on
different calendar days (distinct date strings) differ. -/
theorem c4_generate_cache_key_day (topic : String) (n : Int) (d₁ d₂ : String) :
    _generate_cache_key d₁ topic n = _generate_cache_key d₁ topic n ∧
    (d₁ ≠ d₂ → _generate_cache_key d₁ topic n ≠ _generate_cache_key d₂ topic n) := by
  refine ⟨rfl, fun hne heq => hne ?_⟩
  exact string_append_left_cancel heq

/-- Witness for C4: the key for `("Crypto", 10)` on 2024-05-01 differs from
the key on 2024-05-02. -/
theorem c4_generate_cache_key_day_witness :
    _generate_cache_key "2024-05-01" "Crypto" 10
      ≠ _generate_cache_key "2024-05-02" "Crypto" 10 :=
  (c4_generate_cache_key_day "Crypto" 10 "2024-05-01" "2024-05-02").2 (by decide)

/-! ### C2: cache hit after put -/

/-- Claim C2: after `cache_articles topic n A` at instant `now₁`, a
`get_cached_articles topic n` on the same calendar day (same date string)
at any instant within the 24-hour freshness window returns exactly `A`. -/
theorem c2_get_after_cache_articles (today : String) (now₁ now₂ : Int)
    (store : Store ArticlesEntry) (topic : String) (n : Int)
    (articles : List Article) (h : now₂ ≤ now₁ + 24 * 3600) :
    get_cached_articles today now₂ (cache_articles today now₁ store topic n articles)
      topic n = some articles := by
  simp only [get_cached_articles, cache_articles, Store.lookup_insert_self]
  simp [_is_expired, parseTimestamp, article_cache_expiry]
  omega

/-- Witness for C2: put two articles for `("Crypto", 10)` at instant 0,
get them back 100 seconds later the same day. -/
theorem c2_get_after_cache_articles_witness :
    get_cached_articles "2024-05-01" 100
      (cache_articles "2024-05-01" 0 Store.empty "Crypto" 10
        [⟨some "u1", "A"⟩, ⟨some "u2", "B"⟩])
      "Crypto" 10 = some [⟨some "u1", "A"⟩, ⟨some "u2", "B"⟩] :=
  c2_get_after_cache_articles "2024-05-01" 0 100 Store.empty "Crypto" 10
    [⟨some "u1", "A"⟩, ⟨some "u2", "B"⟩] (by decide)

/-! ### C10: separator-free concatenation collides -/

/-- Claim C10: two article lists with distinct URL sets (`{"ab", "c"}`
versus `{"a", "bc"}`) get the same analysis-cache key, because the sorted
URLs are concatenated with no separator before hashing. -/
theorem c10_analysis_key_collision :
    article_set_key [⟨some "ab", "t1"⟩, ⟨some "c", "t2"⟩]
      = article_set_key [⟨some "a", "t3"⟩, ⟨some "bc", "t4"⟩] ∧
    "ab" ∈ ([⟨some "ab", "t1"⟩, ⟨some "c", "t2"⟩] : List Article).map Article.urlD ∧
    "ab" ∉ ([⟨some "a", "t3"⟩, ⟨some "bc", "t4"⟩] : List Article).map Article.urlD :=
  ⟨rfl, by decide, by decide⟩

/-! ### C1: the dedup filter is the url-based subsequence -/

/-- On article lists whose members all carry a url, the dedup filter
succeeds and returns the `List.filter` by ledger non-membership. -/
theorem filter_new_articles_eq (sent : Store SentEntry) (articles : List Article)
    (h : ∀ a ∈ articles, a.url?.isSome) :
    filter_new_articles sent articles
      = .ok (articles.filter fun a => !is_article_sent sent a.urlD) := by
  induction articles with
  | nil => rfl
  | cons a rest ih =>
    obtain ⟨u, hu⟩ := Option.isSome_iff_exists.mp (h a (by simp))
    have hrest := ih (fun b hb => h b (by simp [hb]))
    have hurlD : a.urlD = u := by simp [Article.urlD, hu]
    simp only [filter_new_articles, Article.getUrl, hu, hrest, List.filter_cons, hurlD]
    cases hs : is_article_sent sent u <;> simp [hs]

/-- Claim C1: for every ledger state and every article list whose members
all have a `'url'` field, `filter_new_articles` returns exactly the
subsequence of the input (relative order preserved) of articles whose url
is not a ledger key. -/
theorem c1_filter_new_articles_subsequence (sent : Store SentEntry)
    (articles : List Article) (h : ∀ a ∈ articles, a.url?.isSome) :
    filter_new_articles sent articles
      = .ok (articles.filter fun a => !is_article_sent sent a.urlD) ∧
    (articles.filter fun a => !is_article_sent sent a.urlD).Sublist articles :=
  ⟨filter_new_articles_eq sent articles h, List.filter_sublist articles⟩

/-- Witness for C1: with `u1` in the ledger, `[u1-article, u2-article]`
filters to the `u2`-article alone. -/
theorem c1_filter_new_articles_subsequence_witness :
    filter_new_articles (Store.empty.insert "u1" ⟨"Crypto", .valid 0⟩)
      [⟨some "u1", "A"⟩, ⟨some "u2", "B"⟩]
      = .ok (([⟨some "u1", "A"⟩, ⟨some "u2", "B"⟩] : List Article).filter
          fun a => !is_article_sent (Store.empty.insert "u1" ⟨"Crypto", .valid 0⟩) a.urlD) ∧
    (([⟨some "u1", "A"⟩, ⟨some "u2", "B"⟩] : List Article).filter
        fun a => !is_article_sent (Store.empty.insert "u1" ⟨"Crypto", .valid 0⟩) a.urlD).Sublist
      [⟨some "u1", "A"⟩, ⟨some "u2", "B"⟩] :=
  c1_filter_new_articles_subsequence (Store.empty.insert "u1" ⟨"Crypto", .valid 0⟩)
    [⟨some "u1", "A"⟩, ⟨some "u2", "B"⟩] (by decide)

example :
    filter_new_articles (Store.empty.insert "u1" ⟨"Crypto", .valid 0⟩)
      [⟨some "u1", "A"⟩, ⟨some "u2", "B"⟩] = .ok [⟨some "u2", "B"⟩] := by rfl

/-! ### Sorting facts for the analysis-set fingerprint -/

theorem pyCharListLe_total : ∀ as bs : List Char,
    pyCharListLe as bs = true ∨ pyCharListLe bs as = true
  | [], _ => Or.inl rfl
  | _ :: _, [] => Or.inr rfl
  | a :: as, b :: bs => by
    rcases lt_trichotomy a b with h | h | h
    · exact Or.inl (by simp [pyCharListLe, h])
    · subst h
      rcases pyCharListLe_total as bs with ih | ih
      · exact Or.inl (by simp [pyCharListLe, lt_irrefl, ih])
      · exact Or.inr (by simp [pyCharListLe, lt_irrefl, ih])
    · exact Or.inr (by simp [pyCharListLe, h])

theorem pyCharListLe_trans : ∀ as bs cs : List Char,
    pyCharListLe as bs = true → pyCharListLe bs cs = true → pyCharListLe as cs = true
  | [], _, _, _, _ => rfl
  | _ :: _, [], _, h1, _ => by simp [pyCharListLe] at h1
  | _ :: _, _ :: _, [], _, h2 => by simp [pyCharListLe] at h2
  | a :: as, b :: bs, c :: cs, h1, h2 => by
    simp only [pyCharListLe] at h1 h2 ⊢
    rcases lt_trichotomy a b with hab | hab | hab
    · rcases lt_trichotomy b c with hbc | hbc | hbc
      · simp [lt_trans hab hbc]
      · subst hbc; simp [hab]
      · simp [asymm hbc, hbc] at h2
    · subst hab
      rcases lt_trichotomy a c with hac | hac | hac
      · simp [hac]
      · subst hac
        simp only [lt_irrefl] at h1 h2 ⊢
        simp at h1 h2 ⊢
        exact pyCharListLe_trans as bs cs h1 h2
      · simp [asymm hac, hac] at h2
    · simp [asymm hab, hab] at h1

theorem pyCharListLe_antisymm : ∀ as bs : List Char,
    pyCharListLe as bs = true → pyCharListLe bs as = true → as = bs
  | [], [], _, _ => rfl
  | [], _ :: _, _, h2 => by simp [pyCharListLe] at h2
  | _ :: _, [], h1, _ => by simp [pyCharListLe] at h1
  | a :: as, b :: bs, h1, h2 => by
    simp only [pyCharListLe] at h1 h2
    rcases lt_trichotomy a b with hab | hab | hab
    · simp [asymm hab, hab] at h2
    · subst hab
      simp [lt_irrefl] at h1 h2
      rw [pyCharListLe_antisymm as bs h1 h2]
    · simp [asymm hab, hab] at h1

theorem pyStrLe_total (s t : String) : pyStrLe s t = true ∨ pyStrLe t s = true :=
  pyCharListLe_total s.data t.data

theorem pyStrLe_trans {s t u : String} (h1 : pyStrLe s t = true)
    (h2 : pyStrLe t u = true) : pyStrLe s u = true :=
  pyCharListLe_trans _ _ _ h1 h2

theorem pyStrLe_antisymm {s t : String} (h1 : pyStrLe s t = true)
    (h2 : pyStrLe t s = true) : s = t :=
  String.ext (pyCharListLe_antisymm _ _ h1 h2)

theorem pyInsert_perm (x : String) (l : List String) : (pyInsert x l).Perm (x :: l) := by
  induction l with
  | nil => exact List.Perm.refl _
  | cons y ys ih =>
    simp only [pyInsert]
    by_cases h : pyStrLe x y = true
    · rw [if_pos h]
    · rw [if_neg h]
      exact (List.Perm.cons y ih).trans (List.Perm.swap x y ys)

theorem pyInsert_sorted (x : String) (l : List String)
    (h : l.Sorted (fun s t => pyStrLe s t = true)) :
    (pyInsert x l).Sorted (fun s t => pyStrLe s t = true) := by
  induction l with
  | nil => simp [pyInsert]
  | cons y ys ih =>
    simp only [pyInsert]
    rcases List.sorted_cons.mp h with ⟨hy, hys⟩
    by_cases hxy : pyStrLe x y = true
    · rw [if_pos hxy]
      refine List.sorted_cons.mpr ⟨?_, h⟩
      intro b hb
      rcases List.mem_cons.mp hb with hb | hb
      · exact hb ▸ hxy
      · exact pyStrLe_trans hxy (hy b hb)
    · rw [if_neg hxy]
      refine List.sorted_cons.mpr ⟨?_, ih hys⟩
      intro b hb
      have hyx : pyStrLe y x = true := (pyStrLe_total x y).resolve_left hxy
      have hb' : b = x ∨ b ∈ ys := by
        have := (pyInsert_perm x ys).mem_iff.mp hb
        simpa using this
      rcases hb' with rfl | hb'
      · exact hyx
      · exact hy b hb'

theorem pySorted_sorted (l : List String) :
    (pySorted l).Sorted (fun s t => pyStrLe s t = true) := by
  induction l with
  | nil => simp [pySorted]
  | cons x xs ih => exact pyInsert_sorted x _ ih

theorem pySorted_perm (l : List String) : (pySorted l).Perm l := by
  induction l with
  | nil => exact List.Perm.refl _
  | cons x xs ih => exact (pyInsert_perm x (pySorted xs)).trans (List.Perm.cons x ih)

theorem pySorted_eq_of_perm {l₁ l₂ : List String} (h : l₁.Perm l₂) :
    pySorted l₁ = pySorted l₂ := by
  haveI : IsAntisymm String (fun s t => pyStrLe s t = true) :=
    ⟨fun _ _ h1 h2 => pyStrLe_antisymm h1 h2⟩
  exact List.eq_of_perm_of_sorted
    ((pySorted_perm l₁).trans (h.trans (pySorted_perm l₂).symm))
    (pySorted_sorted l₁) (pySorted_sorted l₂)

/-! ### C5: order-independence of the analysis-set fingerprint -/

/-- On article lists whose members all carry a url, url collection succeeds
and returns the urls in order. -/
theorem collectUrls_eq (articles : List Article) (h : ∀ a ∈ articles, a.url?.isSome) :
    collectUrls articles = .ok (articles.map Article.urlD) := by
  induction articles with
  | nil => rfl
  | cons a rest ih =>
    obtain ⟨u, hu⟩ := Option.isSome_iff_exists.mp (h a (by simp))
    have hrest := ih (fun b hb => h b (by simp [hb]))
    have hurlD : a.urlD = u := by simp [Article.urlD, hu]
    simp [collectUrls, Article.getUrl, hu, hrest, hurlD]

/-- Claim C5: the analysis-cache key (sorted url concatenation, hashed)
computed by `get_cached_analysis`/`cache_analysis` is invariant under
permutation of an article list whose members all carry a url. -/
theorem c5_analysis_key_perm_invariant (l₁ l₂ : List Article) (hperm : l₁.Perm l₂)
    (hu : ∀ a ∈ l₁, a.url?.isSome) :
    article_set_key l₁ = article_set_key l₂ ∧
    ∀ now store, get_cached_analysis now store l₁ = get_cached_analysis now store l₂ := by
  have hu₂ : ∀ a ∈ l₂, a.url?.isSome := fun a ha => hu a (hperm.mem_iff.mpr ha)
  have hkey : article_set_key l₁ = article_set_key l₂ := by
    simp only [article_set_key, collectUrls_eq l₁ hu, collectUrls_eq l₂ hu₂]
    rw [pySorted_eq_of_perm (hperm.map Article.urlD)]
  exact ⟨hkey, fun now store => by simp only [get_cached_analysis, hkey]⟩

/-- Witness for C5: swapping a two-article list leaves the key and the
cache lookup unchanged. -/
theorem c5_analysis_key_perm_invariant_witness :
    article_set_key [⟨some "u2", "B"⟩, ⟨some "u1", "A"⟩]
      = article_set_key [⟨some "u1", "A"⟩, ⟨some "u2", "B"⟩] ∧
    get_cached_analysis 0 Store.empty [⟨some "u2", "B"⟩, ⟨some "u1", "A"⟩]
      = get_cached_analysis 0 Store.empty [⟨some "u1", "A"⟩, ⟨some "u2", "B"⟩] :=
  ⟨(c5_analysis_key_perm_invariant _ _ (List.Perm.swap _ _ _) (by decide)).1,
   (c5_analysis_key_perm_invariant _ _ (List.Perm.swap _ _ _) (by decide)).2
     0 Store.empty⟩

/-! ### C6: dedup idempotence -/

theorem is_article_sent_insert (s : Store SentEntry) (k : String) (v : SentEntry)
    (u : String) :
    is_article_sent (Store.insert s k v) u = (k = u || is_article_sent s u) := by
  simp only [is_article_sent, Store.lookup_insert]
  by_cases h : k = u <;> simp [h]

/-- Marking a url-carrying article list succeeds, keeps every previously
sent url sent, and leaves every article of the list sent. -/
theorem mark_articles_sent_spec (now : Int) (topic : String) :
    ∀ (l : List Article) (s : Store SentEntry), (∀ a ∈ l, a.url?.isSome) →
      ∃ s', mark_articles_sent now s topic l = .ok s' ∧
        (∀ u, is_article_sent s u = true → is_article_sent s' u = true) ∧
        (∀ a ∈ l, is_article_sent s' a.urlD = true)
  | [], s, _ => ⟨s, rfl, fun _ h => h, by simp⟩
  | a :: rest, s, h => by
    obtain ⟨u, hu⟩ := Option.isSome_iff_exists.mp (h a (by simp))
    obtain ⟨s', hs', hmono, hall⟩ :=
      mark_articles_sent_spec now topic rest (mark_article_sent now s u topic)
        (fun b hb => h b (by simp [hb]))
    refine ⟨s', ?_, ?_, ?_⟩
    · simp [mark_articles_sent, Article.getUrl, hu, hs']
    · intro w hw
      apply hmono
      simp [mark_article_sent, is_article_sent_insert, hw]
    · intro b hb
      rcases List.mem_cons.mp hb with rfl | hb'
      · have hurlD : b.urlD = u := by simp [Article.urlD, hu]
        rw [hurlD]
        apply hmono
        simp [mark_article_sent, is_article_sent_insert]
      · exact hall b hb'

/-- The dedup filter returns the empty list on a list of articles that are
all already in the ledger. -/
theorem filter_new_articles_all_sent (s : Store SentEntry) (l : List Article)
    (hu : ∀ a ∈ l, a.url?.isSome) (hs : ∀ a ∈ l, is_article_sent s a.urlD = true) :
    filter_new_articles s l = .ok [] := by
  rw [filter_new_articles_eq s l hu]
  have : l.filter (fun a => !is_article_sent s a.urlD) = [] := by
    induction l with
    | nil => rfl
    | cons a rest ih =>
      rw [List.filter_cons, if_neg (by simp [hs a (by simp)])]
      exact ih (fun b hb => hu b (by simp [hb])) (fun b hb => hs b (by simp [hb]))
  rw [this]

/-- Claim C6: if `B` is the result of filtering an all-url article list `A`
against ledger `L`, and all of `B` is then marked sent, a second filter of
`B` against the updated ledger returns the empty sequence. -/
theorem c6_dedup_idempotence (now : Int) (sent : Store SentEntry) (topic : String)
    (articles B : List Article) (sent' : Store SentEntry)
    (hu : ∀ a ∈ articles, a.url?.isSome)
    (hB : filter_new_articles sent articles = .ok B)
    (hmark : mark_articles_sent now sent topic B = .ok sent') :
    filter_new_articles sent' B = .ok [] := by
  rw [filter_new_articles_eq sent articles hu] at hB
  injection hB with hBdef
  have huB : ∀ a ∈ B, a.url?.isSome := by
    intro a ha
    rw [← hBdef] at ha
    exact hu a (List.mem_of_mem_filter ha)
  obtain ⟨s'', hs'', _, hall⟩ := mark_articles_sent_spec now topic B sent huB
  rw [hs''] at hmark
  injection hmark with hsent
  rw [← hsent]
  exact filter_new_articles_all_sent s'' B huB hall

/-- Witness for C6: both articles of a two-article batch pass the empty
ledger, are marked sent, and the second filter drops both. -/
theorem c6_dedup_idempotence_witness :
    filter_new_articles
      ((Store.empty.insert "u1" ⟨"Crypto", .valid 7⟩).insert "u2" ⟨"Crypto", .valid 7⟩)
      [⟨some "u1", "A"⟩, ⟨some "u2", "B"⟩] = .ok [] :=
  c6_dedup_idempotence 7 Store.empty "Crypto"
    [⟨some "u1", "A"⟩, ⟨some "u2", "B"⟩] [⟨some "u1", "A"⟩, ⟨some "u2", "B"⟩]
    ((Store.empty.insert "u1" ⟨"Crypto", .valid 7⟩).insert "u2" ⟨"Crypto", .valid 7⟩)
    (by decide) (by rfl) (by rfl)

/-! ### C7: retention sweep safety and removal count -/

theorem sweepStore_fst {V : Type} (p : V → Bool) (s : Store V) :
    (sweepStore p s).1 = List.filter (fun kv => !p kv.2) s := by
  induction s with
  | nil => rfl
  | cons kv rest ih =>
    obtain ⟨k, e⟩ := kv
    rcases hrec : sweepStore p rest with ⟨kept, n⟩
    rw [hrec] at ih
    simp only at ih
    simp only [sweepStore, hrec, List.filter_cons]
    cases hp : p e <;> simp [hp, ih]

theorem sweepStore_length {V : Type} (p : V → Bool) (s : Store V) :
    (sweepStore p s).2 + ((sweepStore p s).1).length = s.length := by
  induction s with
  | nil => rfl
  | cons kv rest ih =>
    obtain ⟨k, e⟩ := kv
    rcases hrec : sweepStore p rest with ⟨kept, n⟩
    rw [hrec] at ih
    simp only at ih
    simp only [sweepStore, hrec]
    cases hp : p e <;> simp [hp] <;> omega

theorem sweepStore_keeps {V : Type} (p : V → Bool) (s : Store V) (kv : String × V)
    (h : kv ∈ s) (hkeep : p kv.2 = false) : kv ∈ (sweepStore p s).1 := by
  rw [sweepStore_fst]
  exact List.mem_filter.mpr ⟨h, by simp [hkeep]⟩

/-- A record that is unexpired under a window stays unexpired under any
smaller window (contrapositive form). -/
theorem _is_expired_mono (now : Int) (ts : Timestamp) {W W' : Int} (h : W ≤ W')
    (he : _is_expired now ts W' = true) : _is_expired now ts W = true := by
  cases ts with
  | valid t =>
    simp only [_is_expired, parseTimestamp, decide_eq_true_eq] at he ⊢
    omega
  | invalid s => rfl

/-- Claim C7: when the retention span `days * 24` hours is at least the
24-hour freshness window, `cleanup_old_cache` removes no fetch- or
analysis-cache record younger than the freshness window; the ledger is
pruned under its own 30-day retention; and the returned count is the total
number of entries removed across the three stores. -/
theorem c7_cleanup_sweep_safety (now : Int) (st : CMState) (days : Int)
    (h : (24 : Int) ≤ days * 24) :
    (∀ kv ∈ st.articles, _is_expired now kv.2.timestamp article_cache_expiry = false →
      kv ∈ (cleanup_old_cache now st days).1.articles) ∧
    (∀ kv ∈ st.analysis, _is_expired now kv.2.timestamp analysis_cache_expiry = false →
      kv ∈ (cleanup_old_cache now st days).1.analysis) ∧
    (cleanup_old_cache now st days).1.sent
      = List.filter (fun kv => !_is_expired now kv.2.sent_at (30 * 24)) st.sent ∧
    (cleanup_old_cache now st days).2
        + ((cleanup_old_cache now st days).1.articles.length
          + (cleanup_old_cache now st days).1.analysis.length
          + (cleanup_old_cache now st days).1.sent.length)
      = st.articles.length + st.analysis.length + st.sent.length := by
  have hfreshA : ∀ kv : String × ArticlesEntry,
      _is_expired now kv.2.timestamp article_cache_expiry = false →
      _is_expired now kv.2.timestamp (days * 24) = false := by
    intro kv hf
    cases hx : _is_expired now kv.2.timestamp (days * 24) with
    | false => rfl
    | true =>
      have := _is_expired_mono now kv.2.timestamp
        (show article_cache_expiry ≤ days * 24 by simpa [article_cache_expiry] using h) hx
      rw [this] at hf
      exact absurd hf (by simp)
  have hfreshB : ∀ kv : String × AnalysisEntry,
      _is_expired now kv.2.timestamp analysis_cache_expiry = false →
      _is_expired now kv.2.timestamp (days * 24) = false := by
    intro kv hf
    cases hx : _is_expired now kv.2.timestamp (days * 24) with
    | false => rfl
    | true =>
      have := _is_expired_mono now kv.2.timestamp
        (show analysis_cache_expiry ≤ days * 24 by simpa [analysis_cache_expiry] using h) hx
      rw [this] at hf
      exact absurd hf (by simp)
  refine ⟨?_, ?_, ?_, ?_⟩
  · intro kv hkv hf
    have := sweepStore_keeps (fun e => _is_expired now e.timestamp (days * 24))
      st.articles kv hkv (hfreshA kv hf)
    simpa [cleanup_old_cache] using this
  · intro kv hkv hf
    have := sweepStore_keeps (fun e => _is_expired now e.timestamp (days * 24))
      st.analysis kv hkv (hfreshB kv hf)
    simpa [cleanup_old_cache] using this
  · simpa [cleanup_old_cache] using
      sweepStore_fst (fun e : SentEntry => _is_expired now e.sent_at (30 * 24)) st.sent
  · have hA := sweepStore_length (fun e : ArticlesEntry => _is_expired now e.timestamp (days * 24)) st.articles
    have hB := sweepStore_length (fun e : AnalysisEntry => _is_expired now e.timestamp (days * 24)) st.analysis
    have hC := sweepStore_length (fun e : SentEntry => _is_expired now e.sent_at (30 * 24)) st.sent
    simp only [cleanup_old_cache]
    omega

/-- The cache state for the C7 witness: one fresh and one stale fetch
record, no analysis records, one stale ledger record. -/
def exCMState : CMState :=
  ⟨(Store.empty.insert "freshA" ⟨"Crypto", .valid 2999900, []⟩).insert "oldA"
      ⟨"Tech", .valid 0, []⟩,
   Store.empty,
   Store.empty.insert "u-old" ⟨"Crypto", .valid 0⟩⟩

/-- Witness for C7 at `now = 3000000`, `days = 7`: the fresh fetch record
survives the sweep, the ledger is filtered under its 30-day window, and
removed plus surviving entry counts add up to the original totals. -/
theorem c7_cleanup_sweep_safety_witness :
    ("freshA", (⟨"Crypto", .valid 2999900, []⟩ : ArticlesEntry))
        ∈ (cleanup_old_cache 3000000 exCMState 7).1.articles ∧
    (cleanup_old_cache 3000000 exCMState 7).1.sent
      = List.filter (fun kv => !_is_expired 3000000 kv.2.sent_at (30 * 24)) exCMState.sent ∧
    (cleanup_old_cache 3000000 exCMState 7).2
        + ((cleanup_old_cache 3000000 exCMState 7).1.articles.length
          + (cleanup_old_cache 3000000 exCMState 7).1.analysis.length
          + (cleanup_old_cache 3000000 exCMState 7).1.sent.length)
      = exCMState.articles.length + exCMState.analysis.length + exCMState.sent.length :=
  ⟨(c7_cleanup_sweep_safety 3000000 exCMState 7 (by decide)).1
      ("freshA", ⟨"Crypto", .valid 2999900, []⟩) (List.Mem.head _) (by rfl),
   (c7_cleanup_sweep_safety 3000000 exCMState 7 (by decide)).2.2.1,
   (c7_cleanup_sweep_safety 3000000 exCMState 7 (by decide)).2.2.2⟩

/-! ### C9: articles without a url identity -/

theorem collectUrls_error (articles : List Article)
    (h : ∃ a ∈ articles, a.url? = none) :
    collectUrls articles = .error .keyError := by
  induction articles with
  | nil => simp at h
  | cons a rest ih =>
    rcases h with ⟨b, hb, hnone⟩
    rcases List.mem_cons.mp hb with rfl | hb'
    · simp [collectUrls, Article.getUrl, hnone]
    · cases ha : a.url? with
      | none => simp [collectUrls, Article.getUrl, ha]
      | some u => simp [collectUrls, Article.getUrl, ha, ih ⟨b, hb', hnone⟩]

theorem filter_new_articles_error (sent : Store SentEntry) (articles : List Article)
    (h : ∃ a ∈ articles, a.url? = none) :
    filter_new_articles sent articles = .error .keyError := by
  induction articles with
  | nil => simp at h
  | cons a rest ih =>
    rcases h with ⟨b, hb, hnone⟩
    rcases List.mem_cons.mp hb with rfl | hb'
    · simp [filter_new_articles, Article.getUrl, hnone]
    · cases ha : a.url? with
      | none => simp [filter_new_articles, Article.getUrl, ha]
      | some u => simp [filter_new_articles, Article.getUrl, ha, ih ⟨b, hb', hnone⟩]

theorem mark_articles_sent_error (now : Int) (topic : String) :
    ∀ (articles : List Article) (sent : Store SentEntry),
      (∃ a ∈ articles, a.url? = none) →
      mark_articles_sent now sent topic articles = .error .keyError
  | [], _, h => by simp at h
  | a :: rest, sent, h => by
    rcases h with ⟨b, hb, hnone⟩
    rcases List.mem_cons.mp hb with rfl | hb'
    · simp [mark_articles_sent, Article.getUrl, hnone]
    · cases ha : a.url? with
      | none => simp [mark_articles_sent, Article.getUrl, ha]
      | some u =>
        simp [mark_articles_sent, Article.getUrl, ha,
          mark_articles_sent_error now topic rest _ ⟨b, hb', hnone⟩]

/-- Counterexample to C9 as stated: an article that HAS a `'url'` key bound
to the empty string is accepted silently — `get_cached_analysis` returns
`.ok` (keying on the hash of the empty concatenation) instead of raising a
contract violation. -/
theorem c9_empty_url_not_rejected :
    get_cached_analysis 0 Store.empty [⟨some "", "no-identity"⟩] = .ok none ∧
    article_set_key [⟨some "", "no-identity"⟩] = .ok (md5hex "") :=
  ⟨rfl, rfl⟩

/-- Claim C9 (amended): an article whose dict is missing the `'url'` key
causes the fingerprinting operations (`get_cached_analysis`,
`cache_analysis`) and the ledger operations (`filter_new_articles`,
`mark_articles_sent`) to raise a `KeyError`; an article with an EMPTY url
string is, however, silently accepted and keyed on the empty string. -/
theorem c9_missing_url_raises (now : Int) (astore : Store AnalysisEntry)
    (sent : Store SentEntry) (topic : String) (analysis : Analysis)
    (articles : List Article) (h : ∃ a ∈ articles, a.url? = none) :
    get_cached_analysis now astore articles = .error .keyError ∧
    cache_analysis now astore articles topic analysis = .error .keyError ∧
    filter_new_articles sent articles = .error .keyError ∧
    mark_articles_sent now sent topic articles = .error .keyError := by
  have hk := collectUrls_error articles h
  exact ⟨by simp [get_cached_analysis, article_set_key, hk],
    by simp [cache_analysis, article_set_key, hk],
    filter_new_articles_error sent articles h,
    mark_articles_sent_error now topic articles sent h⟩

/-- Witness for C9 (amended): a single url-less article makes all four
operations raise `KeyError`. -/
theorem c9_missing_url_raises_witness :
    get_cached_analysis 0 Store.empty [⟨none, "A"⟩] = .error .keyError ∧
    cache_analysis 0 Store.empty [⟨none, "A"⟩] "Crypto" ⟨"S"⟩ = .error .keyError ∧
    filter_new_articles Store.empty [⟨none, "A"⟩] = .error .keyError ∧
    mark_articles_sent 0 Store.empty "Crypto" [⟨none, "A"⟩] = .error .keyError :=
  c9_missing_url_raises 0 Store.empty Store.empty "Crypto" ⟨"S"⟩ [⟨none, "A"⟩]
    ⟨⟨none, "A"⟩, List.mem_cons_self _ _, rfl⟩
